import Mathlib

/-!
Verification of the Fitts' Law experiment program (`fitts.py`) against its
natural-language specification.

The program is a pygame event loop over module-level mutable state.  We embed
it shallowly:

* machine integers are `Int`/`Nat` (Python ints are unbounded, so no modular
  wrap is needed);
* the Euclidean distance test `sqrt((x-tx)^2+(y-ty)^2) <= size/2` is embedded
  in the equivalent squared integer form `4*d2 <= size^2` (both sides are
  exact; `sqrt` and the comparison are monotone, so the float computation in
  the source decides the same predicate on integer inputs);
* `pygame.time.get_ticks()` and `time.time()` are inputs: each modelled frame
  carries a tick value and a boolean telling whether the countdown has
  elapsed;
* `random.shuffle(trial_sequence)` and `random.sample(conditions, n)` are
  seeded PRNG results fixed at program start; they enter the model as
  parameters `ts` (the shuffled 120-element sequence) and `sample` (the value
  `random.sample` would return), quantified in the theorems;
* the `IndexError` a Python list raises on an out-of-range index / `pop` of an
  empty list is modelled by `Option`: a step returns `none` where the source
  would raise;
* writing the log file is I/O; the model counts the `f.write` calls in the
  observation field `writeCount`, and keeps the logged CSV rows as a list of
  `Row` values.

The field `experimentPicked` of the session state is a pure observation: it
records, in order, the `(A, W)` condition pairs that `pickNewTarget` consumed
while the session was in the Experiment phase.  It is written only next to the
consumption itself and is read by no part of the dynamics, so it does not
alter the behaviour being verified; it only lets theorems speak about the
order in which conditions were consumed.
-/

namespace Fitts

/-- The seven experiment states of the source (`START_SCREEN` .. `COUNTDOWN`). -/
inductive Phase where
  | startScreen
  | trial
  | transition
  | experiment
  | breakScreen
  | endPhase
  | countdown
deriving DecidableEq

/-- A Fitts condition: `(A, W)` = (amplitude/distance, width). -/
abbrev Cond := Nat × Nat

/-- `distances = [200, 400, 600, 800]`. -/
def distances : List Nat := [200, 400, 600, 800]

/-- `widths = [30, 50, 70]`. -/
def widths : List Nat := [30, 50, 70]

/-- `repetitions = 10`. -/
def repetitions : Nat := 10

/-- `conditions = [(A, W) for A in distances for W in widths]`. -/
def conditions : List Cond := distances.flatMap (fun A => widths.map (fun W => (A, W)))

/-- `trial_sequence = conditions * repetitions` before the seeded shuffle.
The shuffled result is an (unknown but fixed) permutation of this list and is
passed to the model as a parameter `ts`. -/
def trialSequenceUnshuffled : List Cond := (List.range repetitions).flatMap (fun _ => conditions)

/-- `totalTrialTargets = 3`. -/
def totalTrialTargets : Nat := 3

/-- `totalExperimentTargets = len(conditions) * repetitions`. -/
def totalExperimentTargets : Nat := conditions.length * repetitions

/-- `breakInterval = 20`. -/
def breakInterval : Nat := 20

/-!  ## The raw pointer accumulator (`RawPointer` and `pointing_callback`)

The callback thread owns `pointer.x/y` (clamped) and the per-frame
accumulators `frame_dx`, `frame_dy`, `frame_buttons` (unclamped).  `update`
clamps against the module-level globals `WIDTH`, `HEIGHT`, which are
re-assigned to the detected screen size before the main loop starts, so the
clamp bounds are parameters here, distinct from the construction-time size. -/

/-- State touched by `pointing_callback`: the `RawPointer` position plus the
per-frame delta accumulators. -/
structure PtrState where
  x : Int
  y : Int
  frame_dx : Int
  frame_dy : Int
  frame_buttons : Nat
deriving DecidableEq

/-- `RawPointer.__init__(width, height)` with zeroed accumulators: the position
starts at the centre of the dimensions passed at construction. -/
def initPtr (width height : Nat) : PtrState :=
  { x := (width / 2 : Nat), y := (height / 2 : Nat),
    frame_dx := 0, frame_dy := 0, frame_buttons := 0 }

/-- One `pointing_callback(timestamp, dx, dy, buttons)` call:
`pointer.update(dx, dy)` clamps the position to `[0, W] x [0, H]` (the
current global screen bounds), while the frame accumulators add the raw,
unclamped deltas and latch the latest button mask. -/
def applyDelta (W H : Nat) (p : PtrState) (d : Int × Int × Nat) : PtrState :=
  { x := max 0 (min (W : Int) (p.x + d.1)),
    y := max 0 (min (H : Int) (p.y + d.2.1)),
    frame_dx := p.frame_dx + d.1,
    frame_dy := p.frame_dy + d.2.1,
    frame_buttons := d.2.2 }

/-!  ## The session state (the module-level globals of `fitts.py`) -/

/-- One CSV row appended by `logMouseData` (the two float distance columns are
represented by the exact squared centre distance `distSq` and the derived
inside-edge bit, cf. the header comment). -/
structure Row where
  trialNumber : Nat
  tick : Nat
  x : Int
  y : Int
  targetX : Int
  targetY : Int
  targetSize : Nat
  formerTargetX : Int
  formerTargetY : Int
  formerTargetSize : Nat
  distSq : Int
  insideEdge : Bool
  timeSinceTarget : Int
  timeSinceEdge : Int
  clicked : Bool
  hit : Bool
  overshootCount : Nat
  raw_dx : Int
  raw_dy : Int
  raw_buttons : Nat
deriving DecidableEq

/-- The module-level mutable state of the program (pointer position excluded:
it lives in `PtrState`; the per-frame accumulators are duplicated here because
`logMouseData` reads and resets them). -/
structure Sess where
  phase : Phase
  targetX : Int
  targetY : Int
  targetSize : Nat
  targetOnLeft : Bool
  formerTargetX : Int
  formerTargetY : Int
  formerTargetSize : Nat
  trialCount : Nat
  experimentCount : Nat
  currentTrialSequence : List Cond
  currentTrialIndex : Nat
  targetShownTime : Nat
  enteredEdgeTime : Int
  hasEnteredEdge : Bool
  reactionTimes : List Int
  countdownStart : Nat
  clicked : Bool
  hit : Bool
  insideEdgeLastFrame : Bool
  overshootCount : Nat
  frame_dx : Int
  frame_dy : Int
  frame_buttons : Nat
  logSaved : Bool
  writeCount : Nat
  logRows : List Row
  running : Bool
  experimentPicked : List Cond
deriving DecidableEq

/-- The globals as first initialised (lines 49-98 of the source). -/
def initSess : Sess :=
  { phase := Phase.startScreen,
    targetX := 0, targetY := 0, targetSize := 50, targetOnLeft := true,
    formerTargetX := 0, formerTargetY := 0, formerTargetSize := 0,
    trialCount := 0, experimentCount := 0,
    currentTrialSequence := [], currentTrialIndex := 0,
    targetShownTime := 0, enteredEdgeTime := -1, hasEnteredEdge := false,
    reactionTimes := [], countdownStart := 0,
    clicked := false, hit := false,
    insideEdgeLastFrame := false, overshootCount := 0,
    frame_dx := 0, frame_dy := 0, frame_buttons := 0,
    logSaved := false, writeCount := 0, logRows := [],
    running := true, experimentPicked := [] }

/-- The hit / inside-edge predicate: the source computes
`((px - tx)**2 + (py - ty)**2) ** 0.5 <= size / 2`; squared over the integers
this is `4 * d2 <= size^2`. -/
def withinTarget (px py tx ty : Int) (size : Nat) : Bool :=
  decide (4 * ((px - tx) ^ 2 + (py - ty) ^ 2) ≤ (size : Int) ^ 2)

/-- `saveLog()`: writes `logData` to the log file and sets `logSaved = True`.
The write itself is I/O, observed by incrementing `writeCount`. -/
def saveLog (s : Sess) : Sess :=
  { s with writeCount := s.writeCount + 1, logSaved := true }

section Model

variable (Wd Hd : Nat) (ts sample : List Cond)

/-- The condition-selection half of `pickNewTarget` (lines 142-151): in the
`TRIAL` state the sequence is re-sampled if empty and read at
`currentTrialIndex` (which then increments); in every other state the
sequence is refilled from `trial_sequence` if empty and front-popped.
Returns the chosen condition, the resulting sequence, and the resulting
index, or `none` where Python would raise `IndexError`. -/
def pickChoice (s : Sess) : Option (Cond × List Cond × Nat) :=
  if s.phase = Phase.trial then
    let seq := if s.currentTrialSequence.isEmpty then sample else s.currentTrialSequence
    let idx := if s.currentTrialSequence.isEmpty then 0 else s.currentTrialIndex
    match seq[idx]? with
    | some c => some (c, seq, idx + 1)
    | none => none
  else
    match (if s.currentTrialSequence.isEmpty then ts else s.currentTrialSequence) with
    | [] => none
    | c :: rest => some (c, rest, s.currentTrialIndex)

/-- The placement half of `pickNewTarget` (lines 153-168) for the chosen
condition `c = (A, W)`.  Note the source assigns `targetSize = W` *before*
snapshotting `formerTargetSize = targetSize`, so the recorded former size is
the incoming width `W`, while the former x/y are the outgoing values. -/
def place (now : Nat) (c : Cond) (seq : List Cond) (idx : Nat) (s : Sess) : Sess :=
  { s with
    targetSize := c.2,
    formerTargetX := s.targetX, formerTargetY := s.targetY, formerTargetSize := c.2,
    targetY := ((Hd / 2 : Nat) : Int),
    targetX := if s.targetOnLeft
      then ((Wd / 2 : Nat) : Int) - ((c.1 / 2 : Nat) : Int)
      else ((Wd / 2 : Nat) : Int) + ((c.1 / 2 : Nat) : Int),
    targetOnLeft := ¬ s.targetOnLeft,
    targetShownTime := now,
    enteredEdgeTime := -1, hasEnteredEdge := false,
    insideEdgeLastFrame := false, overshootCount := 0,
    currentTrialSequence := seq, currentTrialIndex := idx,
    experimentPicked :=
      if s.phase = Phase.experiment then s.experimentPicked ++ [c] else s.experimentPicked }

/-- `pickNewTarget()` (lines 136-168). -/
def pickNewTarget (now : Nat) (s : Sess) : Option Sess :=
  match pickChoice ts sample s with
  | some (c, seq, idx) => some (place Wd Hd now c seq idx s)
  | none => none

/-- `logMouseData()` (lines 173-212), called once per frame while the state is
`TRIAL` or `EXPERIMENT`.  `pos` is `pointer.get_pos()` and `now` is
`pygame.time.get_ticks()`.  The one-shot edge-entry latch, the overshoot
increment on an inside-to-outside transition, the CSV row append, and the
reset of `frame_dx`, `frame_dy`, `clicked`, `hit` (and of nothing else) all
follow the source line by line. -/
def logMouseData (now : Nat) (pos : Int × Int) (s : Sess) : Sess :=
  let inside := withinTarget pos.1 pos.2 s.targetX s.targetY s.targetSize
  let entered := s.hasEnteredEdge || inside
  let eTime : Int := if ¬ s.hasEnteredEdge ∧ inside = true then (now : Int) else s.enteredEdgeTime
  let ov := if s.insideEdgeLastFrame = true ∧ inside = false
    then s.overshootCount + 1 else s.overshootCount
  let row : Row :=
    { trialNumber :=
        if s.phase = Phase.trial then s.trialCount + 1
        else if s.phase = Phase.experiment then s.experimentCount + 1
        else 0,
      tick := now, x := pos.1, y := pos.2,
      targetX := s.targetX, targetY := s.targetY, targetSize := s.targetSize,
      formerTargetX := s.formerTargetX, formerTargetY := s.formerTargetY,
      formerTargetSize := s.formerTargetSize,
      distSq := (pos.1 - s.targetX) ^ 2 + (pos.2 - s.targetY) ^ 2,
      insideEdge := inside,
      timeSinceTarget := (now : Int) - (s.targetShownTime : Int),
      timeSinceEdge := if entered = true then (now : Int) - eTime else -1,
      clicked := s.clicked, hit := s.hit, overshootCount := ov,
      raw_dx := s.frame_dx, raw_dy := s.frame_dy, raw_buttons := s.frame_buttons }
  { s with
    hasEnteredEdge := entered, enteredEdgeTime := eTime,
    overshootCount := ov, insideEdgeLastFrame := inside,
    logRows := s.logRows ++ [row],
    frame_dx := 0, frame_dy := 0, clicked := false, hit := false }

/-- The pygame events the main loop reacts to. -/
inductive Ev where
  | quit
  | keyS
  | keyR
  | keyC
  | mouseDown
deriving DecidableEq

/-- The event dispatch of the main loop (lines 258-308).  `pos` is the
`(x, y)` read from the pointer at the top of the loop iteration; `now` is the
tick counter.  Returns `none` where a `pickNewTarget` call would raise. -/
def handleEvent (now : Nat) (pos : Int × Int) (s : Sess) (e : Ev) : Option Sess :=
  match e with
  | Ev.quit => some { s with running := false }
  | Ev.keyS => some (saveLog s)
  | Ev.keyR =>
    if s.phase = Phase.transition then
      pickNewTarget Wd Hd ts sample now { s with trialCount := 0, phase := Phase.trial }
    else some s
  | Ev.keyC =>
    if s.phase = Phase.transition then
      some { s with experimentCount := 0, reactionTimes := [],
                    phase := Phase.countdown, countdownStart := now }
    else if s.phase = Phase.breakScreen then
      some { s with phase := Phase.countdown, countdownStart := now }
    else some s
  | Ev.mouseDown =>
    let s := { s with clicked := true }
    let inside := withinTarget pos.1 pos.2 s.targetX s.targetY s.targetSize
    match s.phase with
    | Phase.startScreen =>
      pickNewTarget Wd Hd ts sample now { s with phase := Phase.trial, trialCount := 0 }
    | Phase.trial =>
      if inside then
        let s := { s with hit := true, trialCount := s.trialCount + 1 }
        if s.trialCount ≥ totalTrialTargets then some { s with phase := Phase.transition }
        else pickNewTarget Wd Hd ts sample now s
      else some { s with hit := false }
    | Phase.experiment =>
      if inside then
        let s := { s with hit := true,
                          reactionTimes := s.reactionTimes ++ [(now : Int) - (s.targetShownTime : Int)],
                          experimentCount := s.experimentCount + 1 }
        if s.experimentCount ≥ totalExperimentTargets then some { s with phase := Phase.endPhase }
        else if s.experimentCount % breakInterval = 0 then some { s with phase := Phase.breakScreen }
        else pickNewTarget Wd Hd ts sample now s
      else some { s with hit := false }
    | _ => some s

/-- The state-dependent part of the draw section (lines 316-347): the
countdown-to-experiment transition when the wall-clock countdown has elapsed
(`cdDone`), and the End-screen automatic save that runs only while
`logSaved` is false. -/
def drawPhase (now : Nat) (cdDone : Bool) (s : Sess) : Option Sess :=
  match s.phase with
  | Phase.countdown =>
    if cdDone then pickNewTarget Wd Hd ts sample now { s with phase := Phase.experiment }
    else some s
  | Phase.endPhase => some (if s.logSaved then s else saveLog s)
  | _ => some s

/-- The inputs of one main-loop iteration: the tick value, the pointer
position read at the top of the loop, the pygame events of this iteration,
whether the countdown has elapsed, and the raw deltas the callback thread
delivered since the previous iteration. -/
structure Frame where
  now : Nat
  pos : Int × Int
  events : List Ev
  cdDone : Bool
  deltas : List (Int × Int × Nat)

/-- The session-side effect of one `pointing_callback` call: accumulate the
raw deltas and latch the button mask (the clamped position itself lives in
`PtrState`). -/
def sessCallback (s : Sess) (d : Int × Int × Nat) : Sess :=
  { s with frame_dx := s.frame_dx + d.1, frame_dy := s.frame_dy + d.2.1,
           frame_buttons := d.2.2 }

/-- One iteration of the main loop (lines 253-356): deliver the pending
callback deltas, process the events in order, run the draw-section state
logic, then log a frame iff the state is `TRIAL` or `EXPERIMENT`. -/
def loopIter (f : Frame) (s : Sess) : Option Sess :=
  let s0 := f.deltas.foldl (sessCallback) s
  (f.events.foldlM (handleEvent Wd Hd ts sample f.now f.pos) s0).bind fun s1 =>
  (drawPhase Wd Hd ts sample f.now f.cdDone s1).bind fun s2 =>
  some (if s2.phase = Phase.trial ∨ s2.phase = Phase.experiment
        then logMouseData f.now f.pos s2 else s2)

/-- `while running:` over a given schedule of frames. -/
def run (fs : List Frame) (s : Sess) : Option Sess :=
  match fs with
  | [] => some s
  | f :: rest => if s.running then (loopIter Wd Hd ts sample f s).bind (run rest) else some s

/-- Program start (line 247): the globals are initialised and `pickNewTarget()`
runs once while the state is still `START_SCREEN` (hence through the
non-trial branch, consuming the front of the shuffled sequence). -/
def programStart : Option Sess := pickNewTarget Wd Hd ts sample 0 initSess

/-- A frame whose only event is a click at the current target centre. -/
def hitFrame (s : Sess) : Frame :=
  { now := 0, pos := (s.targetX, s.targetY), events := [Ev.mouseDown],
    cdDone := false, deltas := [] }

/-- A frame whose only event is a click (position immaterial). -/
def clickFrame : Frame :=
  { now := 0, pos := (0, 0), events := [Ev.mouseDown], cdDone := false, deltas := [] }

/-- A frame whose only event is the given key press. -/
def keyFrame (e : Ev) : Frame :=
  { now := 0, pos := (0, 0), events := [e], cdDone := false, deltas := [] }

/-- An eventless frame on which the countdown has elapsed. -/
def cdFrame : Frame :=
  { now := 0, pos := (0, 0), events := [], cdDone := true, deltas := [] }

/-- One loop iteration whose only event is a click at the target centre. -/
def hitStep (s : Sess) : Option Sess :=
  loopIter Wd Hd ts sample (hitFrame s) s

/-- One participant action during the main experiment: on the break screen,
press continue, let the countdown elapse, then hit the target; otherwise just
hit the target at its centre. -/
def driveOne (s : Sess) : Option Sess :=
  match s.phase with
  | Phase.breakScreen =>
    (loopIter Wd Hd ts sample (keyFrame Ev.keyC) s).bind fun s1 =>
    (loopIter Wd Hd ts sample cdFrame s1).bind fun s2 =>
    hitStep Wd Hd ts sample s2
  | _ => hitStep Wd Hd ts sample s

/-- `n` experiment hits (continuing through break screens). -/
def driveHits : Nat → Sess → Option Sess
  | 0, s => some s
  | n + 1, s => (driveOne Wd Hd ts sample s).bind (driveHits n)

/-- The canonical session prefix: program start, a click on the start screen,
the three practice targets hit at their centres, continue, and the countdown
elapsing (which places the first experiment target). -/
def enterExperiment : Option Sess :=
  (programStart Wd Hd ts sample).bind fun s0 =>
  (loopIter Wd Hd ts sample clickFrame s0).bind fun s1 =>
  (hitStep Wd Hd ts sample s1).bind fun s2 =>
  (hitStep Wd Hd ts sample s2).bind fun s3 =>
  (hitStep Wd Hd ts sample s3).bind fun s4 =>
  (loopIter Wd Hd ts sample (keyFrame Ev.keyC) s4).bind fun s5 =>
  loopIter Wd Hd ts sample cdFrame s5

/-- The canonical full session: enter the experiment and hit all 120 targets. -/
def canonicalRun : Option Sess :=
  (enterExperiment Wd Hd ts sample).bind (driveHits Wd Hd ts sample 120)

/-- One practice repetition from the Transition screen: press the repeat key
(which resets the counter and places a target) and hit the three practice
targets at their centres. -/
def practiceOnce (s : Sess) : Option Sess :=
  (loopIter Wd Hd ts sample (keyFrame Ev.keyR) s).bind fun s1 =>
  (hitStep Wd Hd ts sample s1).bind fun s2 =>
  (hitStep Wd Hd ts sample s2).bind fun s3 =>
  hitStep Wd Hd ts sample s3

/-- `n` practice repetitions in a row. -/
def repeatPractice : Nat → Sess → Option Sess
  | 0, s => some s
  | n + 1, s => (practiceOnce Wd Hd ts sample s).bind (repeatPractice n)

/-- Program start, the initial practice session, then `n` repeats of the
practice via the repeat key. -/
def practiceRepeatRun (n : Nat) : Option Sess :=
  (programStart Wd Hd ts sample).bind fun s0 =>
  (loopIter Wd Hd ts sample clickFrame s0).bind fun s1 =>
  (hitStep Wd Hd ts sample s1).bind fun s2 =>
  (hitStep Wd Hd ts sample s2).bind fun s3 =>
  (hitStep Wd Hd ts sample s3).bind (repeatPractice Wd Hd ts sample n)

end Model

/-!  ## Invariants used to reason about the canonical run -/

/-- The session is in the experiment phase with target `e + 1` on screen
(`e` hits done, `e + 1` conditions consumed), for `e ≤ 118`. -/
def Ready (ts : List Cond) (e : Nat) (s : Sess) : Prop :=
  s.phase = Phase.experiment ∧ s.experimentCount = e ∧
  s.currentTrialSequence = ts.drop (e + 2) ∧
  s.experimentPicked = (ts.drop 1).take (e + 1)

/-- The session is in the experiment phase with the 120th (final) target on
screen: the leftover sequence has been exhausted and refilled, and its first
element consumed a second time. -/
def ReadyLast (ts : List Cond) (s : Sess) : Prop :=
  s.phase = Phase.experiment ∧ s.experimentCount = 119 ∧
  s.currentTrialSequence = ts.drop 1 ∧
  s.experimentPicked = ts.drop 1 ++ ts.take 1

/-- The session is on the break screen after `e` hits, the next condition not
yet consumed. -/
def Pending (ts : List Cond) (e : Nat) (s : Sess) : Prop :=
  s.phase = Phase.breakScreen ∧ s.experimentCount = e ∧
  s.currentTrialSequence = ts.drop (e + 1) ∧
  s.experimentPicked = (ts.drop 1).take e

/-- State invariant after `e` experiment hits of the canonical run. -/
def SInv (ts : List Cond) (e : Nat) (s : Sess) : Prop :=
  if e = 119 then ReadyLast ts s else Ready ts e s ∨ Pending ts e s

/-- A click is latched and not yet logged: either no row has been appended at
index `n` yet and the `clicked` flag is still set, or the row at index `n`
(the first row logged after the click) exists and reports the click. -/
def ClickPending (n : Nat) (s : Sess) : Prop :=
  (s.logRows.length = n ∧ s.clicked = true) ∨
  (∃ r, s.logRows[n]? = some r ∧ r.clicked = true)

/-- Abbreviation for the state updates the Experiment branch of the click
handler performs before its three-way test (lines 298-300). -/
def expHitState (now : Nat) (s : Sess) : Sess :=
  { s with
    clicked := true, hit := true,
    reactionTimes := s.reactionTimes ++ [(now : Int) - (s.targetShownTime : Int)],
    experimentCount := s.experimentCount + 1 }

/-- Abbreviation for the state updates the Trial branch of the click handler
performs before its counter test (lines 288-289). -/
def trialHitState (s : Sess) : Sess :=
  { s with clicked := true, hit := true, trialCount := s.trialCount + 1 }

/-- A predicate holds of the state under a `some`; a failed (raising) run
satisfies nothing. -/
def OptHolds (P : Sess → Prop) : Option Sess → Prop
  | some s => P s
  | none => False

/-!  ## Concrete states used by counterexamples and witnesses -/

/-- A state about to place a new target whose width (50) differs from the
on-screen target's size (30). -/
def c3State : Sess :=
  { initSess with
    phase := Phase.experiment, targetX := 150, targetY := 200,
    targetSize := 30, currentTrialSequence := [(200, 50)] }

/-- A state with a pending button mask and accumulated deltas, about to be
logged. -/
def c7State : Sess :=
  { initSess with frame_dx := 5, frame_dy := -2, frame_buttons := 1, phase := Phase.trial }

/-- An End-screen state in which a save has already succeeded. -/
def c2State : Sess :=
  { initSess with phase := Phase.endPhase, logSaved := true, writeCount := 1 }

/-- An experiment state one hit away from the total. -/
def c6State : Sess :=
  { initSess with
    phase := Phase.experiment, experimentCount := 119,
    targetX := 0, targetY := 0, targetSize := 50, currentTrialSequence := [(400, 70)] }

/-- An experiment state used to exercise the overshoot bookkeeping. -/
def c8State : Sess :=
  { initSess with phase := Phase.experiment, targetX := 0, targetY := 0, targetSize := 50 }

/-- A break-screen state with a click already latched, used to observe that
the pending click is reported on the first row logged after the session
re-enters an active phase. -/
def c10State : Sess :=
  { initSess with
    phase := Phase.breakScreen, clicked := true,
    currentTrialSequence := [(600, 30)], experimentCount := 20 }

/-!  ## Helper lemmas -/

/-- A click at the target centre always satisfies the hit predicate. -/
theorem withinTarget_center (tx ty : Int) (size : Nat) :
    withinTarget tx ty tx ty size = true := by
  simp only [withinTarget, sub_self, decide_eq_true_eq]
  positivity

theorem totalExperimentTargets_eq : totalExperimentTargets = 120 := by decide

theorem trialSequenceUnshuffled_length : trialSequenceUnshuffled.length = 120 := by decide

/-- Clamping keeps each `applyDelta` result inside `[0, W] x [0, H]`. -/
theorem applyDelta_bounds (W H : Nat) (p : PtrState) (d : Int × Int × Nat) :
    0 ≤ (applyDelta W H p d).x ∧ (applyDelta W H p d).x ≤ (W : Int) ∧
    0 ≤ (applyDelta W H p d).y ∧ (applyDelta W H p d).y ≤ (H : Int) := by
  refine ⟨le_max_left _ _, ?_, le_max_left _ _, ?_⟩
  · exact max_le (Int.ofNat_nonneg W) (min_le_left _ _)
  · exact max_le (Int.ofNat_nonneg H) (min_le_left _ _)

/-- Folding any further deltas preserves the clamp bounds. -/
theorem foldl_applyDelta_bounds (W H : Nat) (ds : List (Int × Int × Nat)) (p : PtrState)
    (hp : 0 ≤ p.x ∧ p.x ≤ (W : Int) ∧ 0 ≤ p.y ∧ p.y ≤ (H : Int)) :
    0 ≤ (ds.foldl (applyDelta W H) p).x ∧ (ds.foldl (applyDelta W H) p).x ≤ (W : Int) ∧
    0 ≤ (ds.foldl (applyDelta W H) p).y ∧ (ds.foldl (applyDelta W H) p).y ≤ (H : Int) := by
  induction ds generalizing p with
  | nil => simpa using hp
  | cons d ds ih => exact ih _ (applyDelta_bounds W H p d)

/-- The frame accumulator is the exact running sum of the received deltas. -/
theorem foldl_applyDelta_sum (W H : Nat) (ds : List (Int × Int × Nat)) (p : PtrState) :
    (ds.foldl (applyDelta W H) p).frame_dx = p.frame_dx + (ds.map (fun d => d.1)).sum ∧
    (ds.foldl (applyDelta W H) p).frame_dy = p.frame_dy + (ds.map (fun d => d.2.1)).sum := by
  induction ds generalizing p with
  | nil => simp
  | cons d ds ih =>
    obtain ⟨hx, hy⟩ := ih (applyDelta W H p d)
    refine ⟨?_, ?_⟩
    · rw [List.foldl_cons, hx]; simp [applyDelta]; ring
    · rw [List.foldl_cons, hy]; simp [applyDelta]; ring

/-!  ## Claim theorems -/

/-- C3: the source overwrites `targetSize` with the new width before taking
the former-target snapshot, so the recorded `formerTargetSize` is the incoming
width (50 here), not the outgoing target's size (30); the former x/y are the
outgoing values.  This contradicts the claim that the whole `{x, y, size}`
snapshot is taken before any field is overwritten. -/
theorem C3_code_behavior :
    ∃ s, pickNewTarget 800 400 [] [] 7 c3State = some s ∧
      s.formerTargetX = 150 ∧ s.formerTargetY = 200 ∧
      s.formerTargetSize = 50 ∧ c3State.targetSize = 30 ∧ (50 : Nat) ≠ 30 := by
  exact ⟨_, rfl, rfl, rfl, rfl, rfl, by decide⟩

/-- C5: for every sequence of `applyDelta` calls from the initial pointer
state, the clamped position is inside `[0, W] x [0, H]` after every call
(i.e. after every nonempty prefix of the calls), and the frame accumulator
equals the exact integer sum of all deltas received since the last reset,
independent of clamping. -/
theorem C5_pointer_clamp_and_accumulator (W H : Nat) (ds pre suf : List (Int × Int × Nat))
    (hsplit : ds = pre ++ suf) (hpre : pre ≠ []) :
    (0 ≤ (pre.foldl (applyDelta W H) (initPtr 800 400)).x ∧
     (pre.foldl (applyDelta W H) (initPtr 800 400)).x ≤ (W : Int) ∧
     0 ≤ (pre.foldl (applyDelta W H) (initPtr 800 400)).y ∧
     (pre.foldl (applyDelta W H) (initPtr 800 400)).y ≤ (H : Int)) ∧
    (ds.foldl (applyDelta W H) (initPtr 800 400)).frame_dx = (ds.map (fun d => d.1)).sum ∧
    (ds.foldl (applyDelta W H) (initPtr 800 400)).frame_dy = (ds.map (fun d => d.2.1)).sum := by
  constructor
  · obtain ⟨d, pre0, rfl⟩ : ∃ d pre0, pre = d :: pre0 := by
      cases pre with
      | nil => exact absurd rfl hpre
      | cons d pre0 => exact ⟨d, pre0, rfl⟩
    rw [List.foldl_cons]
    exact foldl_applyDelta_bounds W H pre0 _ (applyDelta_bounds W H _ d)
  · have h := foldl_applyDelta_sum W H ds (initPtr 800 400)
    simpa [initPtr] using h

/-- C5 witness: a concrete two-delta sequence. -/
theorem C5_pointer_clamp_and_accumulator_witness :
    (0 ≤ (([((3 : Int), (4 : Int), (0 : Nat))]).foldl (applyDelta 1920 1080) (initPtr 800 400)).x ∧
     (([((3 : Int), (4 : Int), (0 : Nat))]).foldl (applyDelta 1920 1080) (initPtr 800 400)).x ≤ (1920 : Int) ∧
     0 ≤ (([((3 : Int), (4 : Int), (0 : Nat))]).foldl (applyDelta 1920 1080) (initPtr 800 400)).y ∧
     (([((3 : Int), (4 : Int), (0 : Nat))]).foldl (applyDelta 1920 1080) (initPtr 800 400)).y ≤ (1080 : Int)) ∧
    (([((3 : Int), (4 : Int), (0 : Nat)), ((-5 : Int), (2 : Int), (1 : Nat))]).foldl
        (applyDelta 1920 1080) (initPtr 800 400)).frame_dx
      = (([((3 : Int), (4 : Int), (0 : Nat)), ((-5 : Int), (2 : Int), (1 : Nat))]).map (fun d => d.1)).sum ∧
    (([((3 : Int), (4 : Int), (0 : Nat)), ((-5 : Int), (2 : Int), (1 : Nat))]).foldl
        (applyDelta 1920 1080) (initPtr 800 400)).frame_dy
      = (([((3 : Int), (4 : Int), (0 : Nat)), ((-5 : Int), (2 : Int), (1 : Nat))]).map (fun d => d.2.1)).sum :=
  C5_pointer_clamp_and_accumulator 1920 1080 _ [((3 : Int), (4 : Int), (0 : Nat))]
    [((-5 : Int), (2 : Int), (1 : Nat))] rfl (by decide)

/-- C7 counterexample: after a frame is logged the button component of the
per-frame record is *not* reset to zero (it keeps the latest mask, 1 here),
refuting the claim that all three components `{dx, dy, buttons}` are reset. -/
theorem C7_counterexample :
    (logMouseData 0 (0, 0) c7State).frame_buttons = 1 ∧ (1 : Nat) ≠ 0 := by
  exact ⟨rfl, by decide⟩

/-- C7 amended: immediately after a frame is logged, `dx` and `dy` (and the
one-shot `clicked`/`hit` flags) are reset, while `buttons` retains the most
recent mask; the appended row reports exactly the deltas and mask accumulated
since the previous reset. -/
theorem C7_amended (now : Nat) (pos : Int × Int) (s : Sess) :
    (logMouseData now pos s).frame_dx = 0 ∧
    (logMouseData now pos s).frame_dy = 0 ∧
    (logMouseData now pos s).clicked = false ∧
    (logMouseData now pos s).hit = false ∧
    (logMouseData now pos s).frame_buttons = s.frame_buttons ∧
    ∃ r, (logMouseData now pos s).logRows = s.logRows ++ [r] ∧
      r.raw_dx = s.frame_dx ∧ r.raw_dy = s.frame_dy ∧ r.raw_buttons = s.frame_buttons := by
  refine ⟨rfl, rfl, rfl, rfl, rfl, _, rfl, rfl, rfl, rfl⟩

/-- C8: across two consecutively logged frames with the same current target,
the overshoot count increases by exactly one on an inside-to-outside edge
transition and is unchanged when the cursor is inside on both frames or
outside on both frames. -/
theorem C8_overshoot_transition (s : Sess) (t1 t2 : Nat) (p1 p2 : Int × Int) :
    (withinTarget p1.1 p1.2 s.targetX s.targetY s.targetSize = true →
     withinTarget p2.1 p2.2 s.targetX s.targetY s.targetSize = false →
     (logMouseData t2 p2 (logMouseData t1 p1 s)).overshootCount
       = (logMouseData t1 p1 s).overshootCount + 1) ∧
    (withinTarget p1.1 p1.2 s.targetX s.targetY s.targetSize = true →
     withinTarget p2.1 p2.2 s.targetX s.targetY s.targetSize = true →
     (logMouseData t2 p2 (logMouseData t1 p1 s)).overshootCount
       = (logMouseData t1 p1 s).overshootCount) ∧
    (withinTarget p1.1 p1.2 s.targetX s.targetY s.targetSize = false →
     withinTarget p2.1 p2.2 s.targetX s.targetY s.targetSize = false →
     (logMouseData t2 p2 (logMouseData t1 p1 s)).overshootCount
       = (logMouseData t1 p1 s).overshootCount) := by
  refine ⟨fun h1 h2 => ?_, fun h1 h2 => ?_, fun h1 h2 => ?_⟩ <;>
    simp [logMouseData, h1, h2]

/-- C8 witness: cursor at the centre on the first frame, far outside on the
second. -/
theorem C8_overshoot_transition_witness :
    (logMouseData 1 ((100 : Int), (100 : Int)) (logMouseData 0 ((0 : Int), (0 : Int)) c8State)).overshootCount
      = (logMouseData 0 ((0 : Int), (0 : Int)) c8State).overshootCount + 1 :=
  (C8_overshoot_transition c8State 0 1 ((0 : Int), (0 : Int)) ((100 : Int), (100 : Int))).1
    (by decide) (by decide)

/-- C9: the pointer is constructed with the hard-coded 800x400 dimensions, so
its initial position is their centre (400, 200); after the screen size is
auto-detected the clamp bounds are the detected dimensions (here 1920x1080),
not the construction-time ones: a large delta pins the position at
(1920, 1080), past the construction-time bounds. -/
theorem C9_initial_position_and_detected_clamp :
    (initPtr 800 400).x = 400 ∧ (initPtr 800 400).y = 200 ∧
    (applyDelta 1920 1080 (initPtr 800 400) ((5000 : Int), (5000 : Int), (0 : Nat))).x = 1920 ∧
    (applyDelta 1920 1080 (initPtr 800 400) ((5000 : Int), (5000 : Int), (0 : Nat))).y = 1080 := by
  decide

/-- C6: on a click inside the target during the Experiment phase, the total
check runs first, so reaching the total goes to End regardless of
break-interval alignment; a non-total multiple of the break interval goes to
BreakScreen; otherwise the session stays in Experiment and the next target is
placed.  The reaction time is appended in all three cases. -/
theorem C6_experiment_hit_cases (Wd Hd : Nat) (ts sample : List Cond) (now : Nat)
    (pos : Int × Int) (s : Sess) (c : Cond) (rest : List Cond)
    (hphase : s.phase = Phase.experiment)
    (hin : withinTarget pos.1 pos.2 s.targetX s.targetY s.targetSize = true)
    (hseq : s.currentTrialSequence = c :: rest) :
    (s.experimentCount + 1 ≥ totalExperimentTargets →
      ∃ s9, handleEvent Wd Hd ts sample now pos s Ev.mouseDown = some s9 ∧
        s9.phase = Phase.endPhase ∧
        s9.reactionTimes = s.reactionTimes ++ [(now : Int) - (s.targetShownTime : Int)] ∧
        s9.experimentCount = s.experimentCount + 1) ∧
    (s.experimentCount + 1 < totalExperimentTargets →
     (s.experimentCount + 1) % breakInterval = 0 →
      ∃ s9, handleEvent Wd Hd ts sample now pos s Ev.mouseDown = some s9 ∧
        s9.phase = Phase.breakScreen ∧
        s9.reactionTimes = s.reactionTimes ++ [(now : Int) - (s.targetShownTime : Int)] ∧
        s9.experimentCount = s.experimentCount + 1) ∧
    (s.experimentCount + 1 < totalExperimentTargets →
     (s.experimentCount + 1) % breakInterval ≠ 0 →
      ∃ s9, handleEvent Wd Hd ts sample now pos s Ev.mouseDown = some s9 ∧
        s9.phase = Phase.experiment ∧
        s9.reactionTimes = s.reactionTimes ++ [(now : Int) - (s.targetShownTime : Int)] ∧
        s9.experimentCount = s.experimentCount + 1 ∧
        s9.targetShownTime = now ∧
        s9.experimentPicked = s.experimentPicked ++ [c] ∧
        s9.currentTrialSequence = rest) := by
  refine ⟨fun h1 => ?_, fun h1 h2 => ?_, fun h1 h2 => ?_⟩
  · refine ⟨{ s with
        clicked := true, hit := true,
        reactionTimes := s.reactionTimes ++ [(now : Int) - (s.targetShownTime : Int)],
        experimentCount := s.experimentCount + 1, phase := Phase.endPhase },
      ?_, rfl, rfl, rfl⟩
    simp only [handleEvent]
    simp [hphase, hin, if_pos h1]
  · refine ⟨{ s with
        clicked := true, hit := true,
        reactionTimes := s.reactionTimes ++ [(now : Int) - (s.targetShownTime : Int)],
        experimentCount := s.experimentCount + 1, phase := Phase.breakScreen },
      ?_, rfl, rfl, rfl⟩
    simp only [handleEvent]
    simp [hphase, hin, if_neg (Nat.not_le.mpr h1), if_pos h2]
  · refine ⟨place Wd Hd now c rest s.currentTrialIndex
        { s with
          clicked := true, hit := true,
          reactionTimes := s.reactionTimes ++ [(now : Int) - (s.targetShownTime : Int)],
          experimentCount := s.experimentCount + 1 },
      ?_, ?_, rfl, rfl, rfl, ?_, rfl⟩
    · simp only [handleEvent]
      simp [hphase, hin, if_neg (Nat.not_le.mpr h1), if_neg h2, pickNewTarget, pickChoice, hseq]
    · simp [place, hphase]
    · simp [place, hphase]

/-- C6 witness: one hit away from the total (count 119 -> 120 keeps the
End transition even though 120 is also a multiple of the break interval). -/
theorem C6_experiment_hit_cases_witness :
    ∃ s9, handleEvent 800 600 [] [] 5 ((0 : Int), (0 : Int)) c6State Ev.mouseDown = some s9 ∧
      s9.phase = Phase.endPhase ∧
      s9.reactionTimes = c6State.reactionTimes ++ [(5 : Int) - (c6State.targetShownTime : Int)] ∧
      s9.experimentCount = c6State.experimentCount + 1 :=
  (C6_experiment_hit_cases 800 600 [] [] 5 ((0 : Int), (0 : Int)) c6State (400, 70) []
    rfl (by decide) rfl).1 (by decide)

/-- C2 amended: only the End-screen automatic save is guarded by the saved
flag; a save key press always calls `saveLog`, which performs a file write
unconditionally (incrementing the write count) even when a save has already
succeeded. -/
theorem C2_amended_save_behaviour (Wd Hd : Nat) (ts sample : List Cond) (now : Nat)
    (cd : Bool) (pos : Int × Int) (s : Sess) :
    handleEvent Wd Hd ts sample now pos s Ev.keyS = some (saveLog s) ∧
    (saveLog s).writeCount = s.writeCount + 1 ∧
    (saveLog s).logSaved = true ∧
    (s.phase = Phase.endPhase → s.logSaved = true →
      drawPhase Wd Hd ts sample now cd s = some s) := by
  refine ⟨rfl, rfl, rfl, fun h1 h2 => ?_⟩
  simp [drawPhase, h1, h2]

/-- C2 amended witness: an End-screen state with a successful save behind it. -/
theorem C2_amended_save_behaviour_witness :
    handleEvent 800 600 [] [] 0 ((0 : Int), (0 : Int)) c2State Ev.keyS = some (saveLog c2State) ∧
    (saveLog c2State).writeCount = c2State.writeCount + 1 ∧
    (saveLog c2State).logSaved = true ∧
    drawPhase 800 600 [] [] 0 false c2State = some c2State :=
  ⟨(C2_amended_save_behaviour 800 600 [] [] 0 false ((0 : Int), (0 : Int)) c2State).1,
   (C2_amended_save_behaviour 800 600 [] [] 0 false ((0 : Int), (0 : Int)) c2State).2.1,
   (C2_amended_save_behaviour 800 600 [] [] 0 false ((0 : Int), (0 : Int)) c2State).2.2.1,
   (C2_amended_save_behaviour 800 600 [] [] 0 false ((0 : Int), (0 : Int)) c2State).2.2.2 rfl rfl⟩

set_option maxRecDepth 400000 in
/-- C2 counterexample: run the whole canonical session (on entering End the
automatic save runs once, write count 1); each of two subsequent save key
presses performs a further file write (write counts 2 then 3), refuting the
claim that a save trigger after a successful save performs no file write and
that two presses in End yield exactly one write. -/
theorem C2_counterexample_second_save_writes :
    ((canonicalRun 800 600 trialSequenceUnshuffled []).bind
        (fun s => loopIter 800 600 trialSequenceUnshuffled [] (keyFrame Ev.keyS) s)).map
      Sess.writeCount = some 2 ∧
    (((canonicalRun 800 600 trialSequenceUnshuffled []).bind
        (fun s => loopIter 800 600 trialSequenceUnshuffled [] (keyFrame Ev.keyS) s)).bind
        (fun s => loopIter 800 600 trialSequenceUnshuffled [] (keyFrame Ev.keyS) s)).map
      Sess.writeCount = some 3 := by
  constructor <;> decide

/-- `pickNewTarget` never touches the click flag, the row buffer, or the
running flag. -/
theorem pickNewTarget_preserves (Wd Hd : Nat) (ts sample : List Cond) (now : Nat)
    (s s9 : Sess) (h : pickNewTarget Wd Hd ts sample now s = some s9) :
    s9.clicked = s.clicked ∧ s9.logRows = s.logRows ∧ s9.running = s.running := by
  unfold pickNewTarget at h
  cases hc : pickChoice ts sample s with
  | none => rw [hc] at h; cases h
  | some p =>
    obtain ⟨c, seq, idx⟩ := p
    rw [hc] at h
    cases h
    exact ⟨rfl, rfl, rfl⟩

/-- Event handling never appends rows, never clears a latched click, and a
mouse-down always sets it. -/
theorem handleEvent_rows_clicked (Wd Hd : Nat) (ts sample : List Cond) (now : Nat)
    (pos : Int × Int) (e : Ev) (s s9 : Sess)
    (h : handleEvent Wd Hd ts sample now pos s e = some s9) :
    s9.logRows = s.logRows ∧ (s.clicked = true → s9.clicked = true) ∧
    (e = Ev.mouseDown → s9.clicked = true) := by
  cases e with
  | quit =>
    simp only [handleEvent] at h
    cases h
    exact ⟨rfl, fun hc => hc, fun hx => by cases hx⟩
  | keyS =>
    simp only [handleEvent] at h
    cases h
    exact ⟨rfl, fun hc => hc, fun hx => by cases hx⟩
  | keyR =>
    simp only [handleEvent] at h
    split at h
    · obtain ⟨h1, h2, _⟩ := pickNewTarget_preserves _ _ _ _ _ _ _ h
      exact ⟨by rw [h2], fun hc => by rw [h1]; exact hc, fun hx => by cases hx⟩
    · cases h
      exact ⟨rfl, fun hc => hc, fun hx => by cases hx⟩
  | keyC =>
    simp only [handleEvent] at h
    split at h
    · cases h
      exact ⟨rfl, fun hc => hc, fun hx => by cases hx⟩
    · split at h
      · cases h
        exact ⟨rfl, fun hc => hc, fun hx => by cases hx⟩
      · cases h
        exact ⟨rfl, fun hc => hc, fun hx => by cases hx⟩
  | mouseDown =>
    simp only [handleEvent] at h
    split at h
    · obtain ⟨h1, h2, _⟩ := pickNewTarget_preserves _ _ _ _ _ _ _ h
      exact ⟨by rw [h2], fun _ => by rw [h1], fun _ => by rw [h1]⟩
    · split at h
      · split at h
        · cases h
          exact ⟨rfl, fun _ => rfl, fun _ => rfl⟩
        · obtain ⟨h1, h2, _⟩ := pickNewTarget_preserves _ _ _ _ _ _ _ h
          exact ⟨by rw [h2], fun _ => by rw [h1], fun _ => by rw [h1]⟩
      · cases h
        exact ⟨rfl, fun _ => rfl, fun _ => rfl⟩
    · split at h
      · split at h
        · cases h
          exact ⟨rfl, fun _ => rfl, fun _ => rfl⟩
        · split at h
          · cases h
            exact ⟨rfl, fun _ => rfl, fun _ => rfl⟩
          · obtain ⟨h1, h2, _⟩ := pickNewTarget_preserves _ _ _ _ _ _ _ h
            exact ⟨by rw [h2], fun _ => by rw [h1], fun _ => by rw [h1]⟩
      · cases h
        exact ⟨rfl, fun _ => rfl, fun _ => rfl⟩
    · cases h
      exact ⟨rfl, fun _ => rfl, fun _ => rfl⟩

/-- Folding the event list preserves the rows and a latched click. -/
theorem foldlM_events_rows_clicked (Wd Hd : Nat) (ts sample : List Cond) (now : Nat)
    (pos : Int × Int) (es : List Ev) (s s9 : Sess)
    (h : es.foldlM (handleEvent Wd Hd ts sample now pos) s = some s9) :
    s9.logRows = s.logRows ∧ (s.clicked = true → s9.clicked = true) := by
  induction es generalizing s with
  | nil =>
    simp only [List.foldlM_nil] at h
    cases h
    exact ⟨rfl, fun hc => hc⟩
  | cons e es ih =>
    simp only [List.foldlM_cons] at h
    cases he : handleEvent Wd Hd ts sample now pos s e with
    | none => rw [he] at h; cases h
    | some s1 =>
      rw [he] at h
      simp only [Option.pure_def, Option.bind_eq_bind, Option.some_bind] at h
      obtain ⟨r1, c1, _⟩ := handleEvent_rows_clicked _ _ _ _ _ _ _ _ _ he
      obtain ⟨r2, c2⟩ := ih _ h
      exact ⟨r2.trans r1, fun hc => c2 (c1 hc)⟩

/-- The draw-section state logic never appends rows and never changes the
click flag. -/
theorem drawPhase_rows_clicked (Wd Hd : Nat) (ts sample : List Cond) (now : Nat)
    (cd : Bool) (s s9 : Sess) (h : drawPhase Wd Hd ts sample now cd s = some s9) :
    s9.logRows = s.logRows ∧ s9.clicked = s.clicked := by
  unfold drawPhase at h
  split at h
  · split at h
    · obtain ⟨h1, h2, _⟩ := pickNewTarget_preserves _ _ _ _ _ _ _ h
      exact ⟨by rw [h2], by rw [h1]⟩
    · cases h
      exact ⟨rfl, rfl⟩
  · cases h
    split
    · exact ⟨rfl, rfl⟩
    · exact ⟨rfl, rfl⟩
  · cases h
    exact ⟨rfl, rfl⟩

/-- The callback deltas never touch the rows or the click flag. -/
theorem foldl_sessCallback_rows_clicked (ds : List (Int × Int × Nat)) (s : Sess) :
    (ds.foldl sessCallback s).logRows = s.logRows ∧
    (ds.foldl sessCallback s).clicked = s.clicked := by
  induction ds generalizing s with
  | nil => exact ⟨rfl, rfl⟩
  | cons d ds ih => simpa [sessCallback] using ih { s with
      frame_dx := s.frame_dx + d.1, frame_dy := s.frame_dy + d.2.1, frame_buttons := d.2.2 }

/-- `logMouseData` appends exactly one row, which reports the current click
flag. -/
theorem logMouseData_rows (now : Nat) (pos : Int × Int) (s : Sess) :
    ∃ r, (logMouseData now pos s).logRows = s.logRows ++ [r] ∧ r.clicked = s.clicked :=
  ⟨_, rfl, rfl⟩

/-- One loop iteration preserves `ClickPending`: events and the draw logic
keep the latched click and the rows; if the iteration logs, the appended row
(at index `n`) reports the click and earlier rows are unchanged. -/
theorem loopIter_clickPending (Wd Hd : Nat) (ts sample : List Cond) (f : Frame)
    (n : Nat) (s s9 : Sess) (hp : ClickPending n s)
    (h : loopIter Wd Hd ts sample f s = some s9) : ClickPending n s9 := by
  unfold loopIter at h
  rw [Option.bind_eq_some] at h
  obtain ⟨s1, he, h⟩ := h
  rw [Option.bind_eq_some] at h
  obtain ⟨s2, hd, h⟩ := h
  cases h
  obtain ⟨dr, dc⟩ := foldl_sessCallback_rows_clicked f.deltas s
  obtain ⟨er, ec⟩ := foldlM_events_rows_clicked _ _ _ _ _ _ _ _ _ he
  obtain ⟨rr, rc⟩ := drawPhase_rows_clicked _ _ _ _ _ _ _ _ hd
  have hrows : s2.logRows = s.logRows := by rw [rr, er, dr]
  rcases hp with ⟨hlen, hclk⟩ | ⟨r, hr, hrc⟩
  · have hclk2 : s2.clicked = true := by
      rw [rc]
      exact ec (by rw [dc]; exact hclk)
    split
    · right
      obtain ⟨r, hrow, hrc2⟩ := logMouseData_rows f.now f.pos s2
      refine ⟨r, ?_, by rw [hrc2]; exact hclk2⟩
      rw [hrow, hrows, ← hlen]
      exact List.getElem?_concat_length _ _
    · exact Or.inl ⟨by rw [hrows]; exact hlen, hclk2⟩
  · have hn : n < s.logRows.length := by
      by_contra hcon
      rw [List.getElem?_eq_none (Nat.le_of_not_lt hcon)] at hr
      cases hr
    split
    · right
      obtain ⟨r2, hrow, _⟩ := logMouseData_rows f.now f.pos s2
      refine ⟨r, ?_, hrc⟩
      rw [hrow, hrows, List.getElem?_append_left hn]
      exact hr
    · exact Or.inr ⟨r, by rw [hrows]; exact hr, hrc⟩

/-- Running any schedule of frames preserves `ClickPending`. -/
theorem run_clickPending (Wd Hd : Nat) (ts sample : List Cond) (fs : List Frame)
    (n : Nat) (s s9 : Sess) (hp : ClickPending n s)
    (h : run Wd Hd ts sample fs s = some s9) : ClickPending n s9 := by
  induction fs generalizing s with
  | nil =>
    cases h
    exact hp
  | cons f fs ih =>
    unfold run at h
    split at h
    · rw [Option.bind_eq_some] at h
      obtain ⟨s1, h1, h2⟩ := h
      exact ih _ (loopIter_clickPending _ _ _ _ _ _ _ _ hp h1) h2
    · cases h
      exact hp

/-- C10: a mouse-button-down event sets the click flag in every state; key
events never clear it; and once the flag is latched, the first row logged
afterwards (the row appended at the current buffer length) reports the click,
however many non-logging frames pass in between. -/
theorem C10_click_latched_until_logged (Wd Hd : Nat) (ts sample : List Cond) (now : Nat)
    (pos : Int × Int) (fs : List Frame) (s : Sess) :
    (∀ s9, handleEvent Wd Hd ts sample now pos s Ev.mouseDown = some s9 →
      s9.clicked = true) ∧
    (∀ e s9, e = Ev.quit ∨ e = Ev.keyS ∨ e = Ev.keyR ∨ e = Ev.keyC →
      handleEvent Wd Hd ts sample now pos s e = some s9 → s9.clicked = s.clicked) ∧
    (s.clicked = true → ∀ s9, run Wd Hd ts sample fs s = some s9 →
      ∀ r, s9.logRows[s.logRows.length]? = some r → r.clicked = true) := by
  refine ⟨?_, ?_, ?_⟩
  · intro s9 h
    exact (handleEvent_rows_clicked _ _ _ _ _ _ _ _ _ h).2.2 rfl
  · intro e s9 hcase h
    have hgen := handleEvent_rows_clicked Wd Hd ts sample now pos e s s9 h
    rcases hcase with rfl | rfl | rfl | rfl
    · simp only [handleEvent] at h
      cases h
      rfl
    · simp only [handleEvent] at h
      cases h
      rfl
    · simp only [handleEvent] at h
      split at h
      · rw [(pickNewTarget_preserves _ _ _ _ _ _ _ h).1]
      · cases h
        rfl
    · simp only [handleEvent] at h
      split at h
      · cases h
        rfl
      · split at h
        · cases h
          rfl
        · cases h
          rfl
  · intro hc s9 hrun r hr
    have hp : ClickPending s.logRows.length s := Or.inl ⟨rfl, hc⟩
    have := run_clickPending _ _ _ _ _ _ _ _ hp hrun
    rcases this with ⟨hlen, _⟩ | ⟨r2, hr2, hrc2⟩
    · rw [List.getElem?_eq_none (by rw [hlen])] at hr
      cases hr
    · rw [hr2] at hr
      cases hr
      exact hrc2

/-- C10 witness: a break-screen state with a latched click; after continue and
the countdown, the first logged row reports the click. -/
theorem C10_click_latched_until_logged_witness :
    ∃ s9, run 800 600 [] [] [keyFrame Ev.keyC, cdFrame] c10State = some s9 ∧
      ∃ r, s9.logRows[0]? = some r ∧ r.clicked = true := by
  refine ⟨_, rfl, _, rfl, ?_⟩
  exact (C10_click_latched_until_logged 800 600 [] [] 0 ((0 : Int), (0 : Int))
    [keyFrame Ev.keyC, cdFrame] c10State).2.2 rfl _ rfl _ rfl

/-!  ## Single-step characterisation lemmas used for the canonical-run proof -/

theorem optHolds_elim {P : Sess → Prop} {o : Option Sess} (h : OptHolds P o) :
    ∃ s, o = some s ∧ P s := by
  cases o with
  | none => cases h
  | some s => exact ⟨s, rfl, h⟩

theorem optHolds_bind {P Q : Sess → Prop} {o : Option Sess} {f : Sess → Option Sess}
    (h : OptHolds P o) (hf : ∀ s, P s → OptHolds Q (f s)) : OptHolds Q (o.bind f) := by
  cases o with
  | none => cases h
  | some s => exact hf s h

theorem optHolds_mono {P Q : Sess → Prop} {o : Option Sess}
    (h : OptHolds P o) (hpq : ∀ s, P s → Q s) : OptHolds Q o := by
  cases o with
  | none => cases h
  | some s => exact hpq s h

/-- The non-trial branch of the selector pops the front of a nonempty
sequence. -/
theorem pickChoice_popFront (ts sample : List Cond) (s : Sess) (c : Cond) (rest : List Cond)
    (hph : s.phase ≠ Phase.trial) (hseq : s.currentTrialSequence = c :: rest) :
    pickChoice ts sample s = some (c, rest, s.currentTrialIndex) := by
  simp [pickChoice, hph, hseq]

/-- The non-trial branch refills from `trial_sequence` when the sequence is
empty, then pops its front. -/
theorem pickChoice_refill (ts sample : List Cond) (s : Sess) (c : Cond) (rest : List Cond)
    (hph : s.phase ≠ Phase.trial) (hseq : s.currentTrialSequence = []) (hts : ts = c :: rest) :
    pickChoice ts sample s = some (c, rest, s.currentTrialIndex) := by
  simp [pickChoice, hph, hseq, hts]

/-- The trial branch reads the sequence at the running index (no pop) and
bumps the index. -/
theorem pickChoice_trial (ts sample : List Cond) (s : Sess) (c : Cond)
    (hph : s.phase = Phase.trial) (hne : s.currentTrialSequence.isEmpty = false)
    (hget : s.currentTrialSequence[s.currentTrialIndex]? = some c) :
    pickChoice ts sample s = some (c, s.currentTrialSequence, s.currentTrialIndex + 1) := by
  simp [pickChoice, hph, hne, hget]

theorem pickNewTarget_eq_place (Wd Hd : Nat) (ts sample : List Cond) (now : Nat)
    (s : Sess) (c : Cond) (rest : List Cond) (idx : Nat)
    (hch : pickChoice ts sample s = some (c, rest, idx)) :
    pickNewTarget Wd Hd ts sample now s = some (place Wd Hd now c rest idx s) := by
  unfold pickNewTarget
  rw [hch]

/-- A click while the state is `START_SCREEN` starts the trial session and
places a target. -/
theorem handleEvent_startClick (Wd Hd : Nat) (ts sample : List Cond) (now : Nat)
    (pos : Int × Int) (s : Sess) (hph : s.phase = Phase.startScreen) :
    handleEvent Wd Hd ts sample now pos s Ev.mouseDown =
      pickNewTarget Wd Hd ts sample now
        { s with clicked := true, phase := Phase.trial, trialCount := 0 } := by
  simp only [handleEvent]
  simp [hph]

/-- A trial hit below the practice total places the next practice target. -/
theorem handleEvent_trialHit_next (Wd Hd : Nat) (ts sample : List Cond) (now : Nat)
    (pos : Int × Int) (s : Sess) (hph : s.phase = Phase.trial)
    (hin : withinTarget pos.1 pos.2 s.targetX s.targetY s.targetSize = true)
    (hcnt : s.trialCount + 1 < totalTrialTargets) :
    handleEvent Wd Hd ts sample now pos s Ev.mouseDown =
      pickNewTarget Wd Hd ts sample now (trialHitState s) := by
  simp only [handleEvent]
  simp [hph, hin, if_neg (Nat.not_le.mpr hcnt), trialHitState]

/-- The practice-completing trial hit moves to the Transition screen. -/
theorem handleEvent_trialHit_last (Wd Hd : Nat) (ts sample : List Cond) (now : Nat)
    (pos : Int × Int) (s : Sess) (hph : s.phase = Phase.trial)
    (hin : withinTarget pos.1 pos.2 s.targetX s.targetY s.targetSize = true)
    (hcnt : s.trialCount + 1 ≥ totalTrialTargets) :
    handleEvent Wd Hd ts sample now pos s Ev.mouseDown =
      some { trialHitState s with phase := Phase.transition } := by
  simp only [handleEvent]
  simp [hph, hin, if_pos hcnt, trialHitState]

/-- The continue key on the Transition screen resets the experiment counters
and starts the countdown. -/
theorem handleEvent_keyC_transition (Wd Hd : Nat) (ts sample : List Cond) (now : Nat)
    (pos : Int × Int) (s : Sess) (hph : s.phase = Phase.transition) :
    handleEvent Wd Hd ts sample now pos s Ev.keyC =
      some { s with experimentCount := 0, reactionTimes := [],
                    phase := Phase.countdown, countdownStart := now } := by
  simp only [handleEvent]
  simp [hph]

/-- The continue key on the break screen restarts the countdown. -/
theorem handleEvent_keyC_break (Wd Hd : Nat) (ts sample : List Cond) (now : Nat)
    (pos : Int × Int) (s : Sess) (hph : s.phase = Phase.breakScreen) :
    handleEvent Wd Hd ts sample now pos s Ev.keyC =
      some { s with phase := Phase.countdown, countdownStart := now } := by
  simp only [handleEvent]
  simp [hph]

/-- The repeat key on the Transition screen resets the trial counter and
places a target. -/
theorem handleEvent_keyR_transition (Wd Hd : Nat) (ts sample : List Cond) (now : Nat)
    (pos : Int × Int) (s : Sess) (hph : s.phase = Phase.transition) :
    handleEvent Wd Hd ts sample now pos s Ev.keyR =
      pickNewTarget Wd Hd ts sample now { s with trialCount := 0, phase := Phase.trial } := by
  simp only [handleEvent]
  simp [hph]

/-- An experiment hit that reaches the total ends the session. -/
theorem handleEvent_expHit_total (Wd Hd : Nat) (ts sample : List Cond) (now : Nat)
    (pos : Int × Int) (s : Sess) (hph : s.phase = Phase.experiment)
    (hin : withinTarget pos.1 pos.2 s.targetX s.targetY s.targetSize = true)
    (h1 : s.experimentCount + 1 ≥ totalExperimentTargets) :
    handleEvent Wd Hd ts sample now pos s Ev.mouseDown =
      some { expHitState now s with phase := Phase.endPhase } := by
  simp only [handleEvent]
  simp [hph, hin, if_pos h1, expHitState]

/-- An experiment hit on a non-total multiple of the break interval goes to
the break screen. -/
theorem handleEvent_expHit_break (Wd Hd : Nat) (ts sample : List Cond) (now : Nat)
    (pos : Int × Int) (s : Sess) (hph : s.phase = Phase.experiment)
    (hin : withinTarget pos.1 pos.2 s.targetX s.targetY s.targetSize = true)
    (h1 : s.experimentCount + 1 < totalExperimentTargets)
    (h2 : (s.experimentCount + 1) % breakInterval = 0) :
    handleEvent Wd Hd ts sample now pos s Ev.mouseDown =
      some { expHitState now s with phase := Phase.breakScreen } := by
  simp only [handleEvent]
  simp [hph, hin, if_neg (Nat.not_le.mpr h1), if_pos h2, expHitState]

/-- Any other experiment hit places the next target. -/
theorem handleEvent_expHit_next (Wd Hd : Nat) (ts sample : List Cond) (now : Nat)
    (pos : Int × Int) (s : Sess) (hph : s.phase = Phase.experiment)
    (hin : withinTarget pos.1 pos.2 s.targetX s.targetY s.targetSize = true)
    (h1 : s.experimentCount + 1 < totalExperimentTargets)
    (h2 : (s.experimentCount + 1) % breakInterval ≠ 0) :
    handleEvent Wd Hd ts sample now pos s Ev.mouseDown =
      pickNewTarget Wd Hd ts sample now (expHitState now s) := by
  simp only [handleEvent]
  simp [hph, hin, if_neg (Nat.not_le.mpr h1), if_neg h2, expHitState]

/-- The draw section does nothing outside the Countdown and End branches. -/
theorem drawPhase_other (Wd Hd : Nat) (ts sample : List Cond) (now : Nat) (cd : Bool)
    (s : Sess) (h1 : s.phase ≠ Phase.countdown) (h2 : s.phase ≠ Phase.endPhase) :
    drawPhase Wd Hd ts sample now cd s = some s := by
  unfold drawPhase
  cases hp : s.phase <;> simp_all

/-- An elapsed countdown enters the Experiment phase and places a target. -/
theorem drawPhase_countdown_done (Wd Hd : Nat) (ts sample : List Cond) (now : Nat)
    (s : Sess) (hph : s.phase = Phase.countdown) :
    drawPhase Wd Hd ts sample now true s =
      pickNewTarget Wd Hd ts sample now { s with phase := Phase.experiment } := by
  simp [drawPhase, hph]

/-- The End screen auto-saves exactly while `logSaved` is false. -/
theorem drawPhase_end (Wd Hd : Nat) (ts sample : List Cond) (now : Nat) (cd : Bool)
    (s : Sess) (hph : s.phase = Phase.endPhase) :
    drawPhase Wd Hd ts sample now cd s = some (if s.logSaved then s else saveLog s) := by
  simp [drawPhase, hph]

/-- A loop iteration with a single event, spelled as the composition of its
three stages. -/
theorem loopIter_single_event (Wd Hd : Nat) (ts sample : List Cond) (now : Nat)
    (pos : Int × Int) (e : Ev) (cd : Bool) (s : Sess) :
    loopIter Wd Hd ts sample ⟨now, pos, [e], cd, []⟩ s =
      (handleEvent Wd Hd ts sample now pos s e).bind fun s1 =>
      (drawPhase Wd Hd ts sample now cd s1).bind fun s2 =>
      some (if s2.phase = Phase.trial ∨ s2.phase = Phase.experiment
            then logMouseData now pos s2 else s2) := by
  unfold loopIter
  simp only [List.foldl_nil, List.foldlM_cons, List.foldlM_nil]
  cases h : handleEvent Wd Hd ts sample now pos s e <;> simp [h]

/-- A loop iteration with no events. -/
theorem loopIter_no_event (Wd Hd : Nat) (ts sample : List Cond) (now : Nat)
    (pos : Int × Int) (cd : Bool) (s : Sess) :
    loopIter Wd Hd ts sample ⟨now, pos, [], cd, []⟩ s =
      (drawPhase Wd Hd ts sample now cd s).bind fun s2 =>
      some (if s2.phase = Phase.trial ∨ s2.phase = Phase.experiment
            then logMouseData now pos s2 else s2) := by
  unfold loopIter
  simp [List.foldlM]

/-- A waiting countdown leaves the state unchanged. -/
theorem drawPhase_countdown_wait (Wd Hd : Nat) (ts sample : List Cond) (now : Nat)
    (s : Sess) (hph : s.phase = Phase.countdown) :
    drawPhase Wd Hd ts sample now false s = some s := by
  simp [drawPhase, hph]

theorem place_experimentPicked_exp (Wd Hd : Nat) (now : Nat) (c : Cond) (seq : List Cond)
    (idx : Nat) (s : Sess) (h : s.phase = Phase.experiment) :
    (place Wd Hd now c seq idx s).experimentPicked = s.experimentPicked ++ [c] := by
  simp [place, h]

theorem place_experimentPicked_other (Wd Hd : Nat) (now : Nat) (c : Cond) (seq : List Cond)
    (idx : Nat) (s : Sess) (h : s.phase ≠ Phase.experiment) :
    (place Wd Hd now c seq idx s).experimentPicked = s.experimentPicked := by
  simp [place, h]

/-- A centre-click loop iteration whose event handling yields a state in an
active phase (and logs). -/
theorem hitStep_eq_log (Wd Hd : Nat) (ts sample : List Cond) (s s3 : Sess)
    (hev : handleEvent Wd Hd ts sample 0 (s.targetX, s.targetY) s Ev.mouseDown = some s3)
    (h1 : s3.phase ≠ Phase.countdown) (h2 : s3.phase ≠ Phase.endPhase)
    (h3 : s3.phase = Phase.trial ∨ s3.phase = Phase.experiment) :
    hitStep Wd Hd ts sample s = some (logMouseData 0 (s.targetX, s.targetY) s3) := by
  unfold hitStep hitFrame
  rw [loopIter_single_event, hev]
  simp only [Option.some_bind]
  rw [drawPhase_other _ _ _ _ _ _ _ h1 h2]
  simp only [Option.some_bind]
  rw [if_pos h3]

/-- A centre-click loop iteration whose event handling leaves an inactive,
non-countdown, non-End phase (no log). -/
theorem hitStep_eq_noLog (Wd Hd : Nat) (ts sample : List Cond) (s s3 : Sess)
    (hev : handleEvent Wd Hd ts sample 0 (s.targetX, s.targetY) s Ev.mouseDown = some s3)
    (h1 : s3.phase ≠ Phase.countdown) (h2 : s3.phase ≠ Phase.endPhase)
    (h3 : ¬ (s3.phase = Phase.trial ∨ s3.phase = Phase.experiment)) :
    hitStep Wd Hd ts sample s = some s3 := by
  unfold hitStep hitFrame
  rw [loopIter_single_event, hev]
  simp only [Option.some_bind]
  rw [drawPhase_other _ _ _ _ _ _ _ h1 h2]
  simp only [Option.some_bind]
  rw [if_neg h3]

/-- A centre-click loop iteration whose event handling ends the session (the
same iteration runs the End-screen auto-save, and does not log). -/
theorem hitStep_eq_end (Wd Hd : Nat) (ts sample : List Cond) (s s3 : Sess)
    (hev : handleEvent Wd Hd ts sample 0 (s.targetX, s.targetY) s Ev.mouseDown = some s3)
    (hph : s3.phase = Phase.endPhase) :
    hitStep Wd Hd ts sample s = some (if s3.logSaved then s3 else saveLog s3) := by
  unfold hitStep hitFrame
  rw [loopIter_single_event, hev]
  simp only [Option.some_bind]
  rw [drawPhase_end _ _ _ _ _ _ _ hph]
  simp only [Option.some_bind]
  have hp2 : (if s3.logSaved then s3 else saveLog s3).phase = s3.phase := by
    split
    · rfl
    · rfl
  rw [if_neg]
  rw [hp2, hph]
  simp

/-- The experiment-phase hit step from a `Ready` state below the break and
total boundaries reaches `Ready (e + 1)`. -/
theorem hitStep_ready_next (Wd Hd : Nat) (ts sample : List Cond) (hlen : ts.length = 120)
    (e : Nat) (he : e ≤ 117) (hmod : (e + 1) % 20 ≠ 0) (s : Sess) (hs : Ready ts e s) :
    OptHolds (Ready ts (e + 1)) (hitStep Wd Hd ts sample s) := by
  obtain ⟨h1, h2, h3, h4⟩ := hs
  have hlt : e + 2 < ts.length := by omega
  have hd : ts.drop (e + 2) = ts[e + 2] :: ts.drop (e + 3) := List.drop_eq_getElem_cons hlt
  have hch : pickChoice ts sample (expHitState 0 s) =
      some (ts[e + 2], ts.drop (e + 3), s.currentTrialIndex) := by
    apply pickChoice_popFront
    · show s.phase ≠ Phase.trial
      rw [h1]
      simp
    · show s.currentTrialSequence = _
      rw [h3, hd]
  have hev := handleEvent_expHit_next Wd Hd ts sample 0 (s.targetX, s.targetY) s h1
    (withinTarget_center _ _ _)
    (by rw [totalExperimentTargets_eq, h2]; omega)
    (by rw [h2]; exact hmod)
  rw [pickNewTarget_eq_place Wd Hd ts sample 0 (expHitState 0 s) (ts[e + 2])
    (ts.drop (e + 3)) s.currentTrialIndex hch] at hev
  have hpph : (place Wd Hd 0 (ts[e + 2]) (ts.drop (e + 3)) s.currentTrialIndex
      (expHitState 0 s)).phase = Phase.experiment := h1
  rw [hitStep_eq_log Wd Hd ts sample s _ hev (by rw [hpph]; simp) (by rw [hpph]; simp)
    (Or.inr hpph)]
  show Ready ts (e + 1) _
  refine ⟨h1, ?_, ?_, ?_⟩
  · show s.experimentCount + 1 = e + 1
    rw [h2]
  · show ts.drop (e + 3) = ts.drop (e + 1 + 2)
    rfl
  · show (place Wd Hd 0 (ts[e + 2]) (ts.drop (e + 3)) s.currentTrialIndex
        (expHitState 0 s)).experimentPicked = (ts.drop 1).take (e + 1 + 1)
    rw [place_experimentPicked_exp _ _ _ _ _ _ (expHitState 0 s)
      (show (expHitState 0 s).phase = Phase.experiment from h1)]
    show s.experimentPicked ++ [ts[e + 2]] = _
    have hidx : 1 + (e + 1) = e + 2 := by omega
    rw [h4]
    conv_rhs => rw [List.take_succ]
    rw [List.getElem?_drop, hidx, List.getElem?_eq_getElem hlt]
    rfl

/-- The experiment-phase hit step on a non-total break boundary reaches
`Pending (e + 1)` (no placement, no log on that frame). -/
theorem hitStep_ready_break (Wd Hd : Nat) (ts sample : List Cond) (e : Nat)
    (he : e ≤ 117) (hmod : (e + 1) % 20 = 0) (s : Sess) (hs : Ready ts e s) :
    OptHolds (Pending ts (e + 1)) (hitStep Wd Hd ts sample s) := by
  obtain ⟨h1, h2, h3, h4⟩ := hs
  have hev := handleEvent_expHit_break Wd Hd ts sample 0 (s.targetX, s.targetY) s h1
    (withinTarget_center _ _ _)
    (by rw [totalExperimentTargets_eq, h2]; omega)
    (by rw [h2]; exact hmod)
  rw [hitStep_eq_noLog Wd Hd ts sample s _ hev (by simp) (by simp) (by simp)]
  show Pending ts (e + 1) _
  refine ⟨rfl, ?_, ?_, ?_⟩
  · show s.experimentCount + 1 = e + 1
    rw [h2]
  · show s.currentTrialSequence = ts.drop (e + 1 + 1)
    exact h3
  · show s.experimentPicked = (ts.drop 1).take (e + 1)
    exact h4

/-- The 119th experiment hit exhausts the leftover sequence; the placement of
the 120th target refills it from `trial_sequence` and pops its first element
a second time. -/
theorem hitStep_ready_118 (Wd Hd : Nat) (ts sample : List Cond) (hlen : ts.length = 120)
    (s : Sess) (hs : Ready ts 118 s) :
    OptHolds (ReadyLast ts) (hitStep Wd Hd ts sample s) := by
  obtain ⟨h1, h2, h3, h4⟩ := hs
  have hnil : ts.drop 120 = [] := List.drop_eq_nil_iff.mpr (by omega)
  cases ts with
  | nil => simp at hlen
  | cons c0 ts0 =>
  have hlen0 : ts0.length = 119 := by
    simp at hlen
    omega
  have hch : pickChoice (c0 :: ts0) sample (expHitState 0 s) =
      some (c0, ts0, s.currentTrialIndex) := by
    apply pickChoice_refill
    · show s.phase ≠ Phase.trial
      rw [h1]
      simp
    · show s.currentTrialSequence = []
      rw [h3]
      exact hnil
    · rfl
  have hev := handleEvent_expHit_next Wd Hd (c0 :: ts0) sample 0 (s.targetX, s.targetY) s h1
    (withinTarget_center _ _ _)
    (by rw [totalExperimentTargets_eq, h2]; omega)
    (by rw [h2]; decide)
  rw [pickNewTarget_eq_place Wd Hd (c0 :: ts0) sample 0 (expHitState 0 s) c0 ts0
    s.currentTrialIndex hch] at hev
  have hpph : (place Wd Hd 0 c0 ts0 s.currentTrialIndex (expHitState 0 s)).phase
      = Phase.experiment := h1
  rw [hitStep_eq_log Wd Hd (c0 :: ts0) sample s _ hev (by rw [hpph]; simp)
    (by rw [hpph]; simp) (Or.inr hpph)]
  show ReadyLast _ _
  refine ⟨h1, ?_, rfl, ?_⟩
  · show s.experimentCount + 1 = 119
    rw [h2]
  · show (place Wd Hd 0 c0 ts0 s.currentTrialIndex (expHitState 0 s)).experimentPicked
      = (c0 :: ts0).drop 1 ++ (c0 :: ts0).take 1
    rw [place_experimentPicked_exp _ _ _ _ _ _ (expHitState 0 s)
      (show (expHitState 0 s).phase = Phase.experiment from h1)]
    show s.experimentPicked ++ [c0] = ts0 ++ [c0]
    rw [h4]
    show ts0.take 119 ++ [c0] = ts0 ++ [c0]
    rw [List.take_of_length_le (by omega)]

/-- The 120th (final) experiment hit ends the session; the same frame runs the
End-screen auto-save and does not log. -/
theorem hitStep_readyLast_end (Wd Hd : Nat) (ts sample : List Cond) (s : Sess)
    (hs : ReadyLast ts s) :
    OptHolds (fun s9 => s9.phase = Phase.endPhase ∧
        s9.experimentPicked = ts.drop 1 ++ ts.take 1 ∧ s9.experimentCount = 120)
      (hitStep Wd Hd ts sample s) := by
  obtain ⟨h1, h2, h3, h4⟩ := hs
  have hev := handleEvent_expHit_total Wd Hd ts sample 0 (s.targetX, s.targetY) s h1
    (withinTarget_center _ _ _)
    (by rw [totalExperimentTargets_eq, h2])
  rw [hitStep_eq_end Wd Hd ts sample s _ hev rfl]
  show _ ∧ _ ∧ _
  refine ⟨?_, ?_, ?_⟩
  · split
    · rfl
    · rfl
  · split
    · show s.experimentPicked = _
      exact h4
    · show s.experimentPicked = _
      exact h4
  · split
    · show s.experimentCount + 1 = 120
      rw [h2]
    · show s.experimentCount + 1 = 120
      rw [h2]

/-- The continue key on the break screen starts the countdown. -/
theorem keyCFrame_break (Wd Hd : Nat) (ts sample : List Cond) (s : Sess)
    (hph : s.phase = Phase.breakScreen) :
    loopIter Wd Hd ts sample (keyFrame Ev.keyC) s =
      some { s with phase := Phase.countdown, countdownStart := 0 } := by
  unfold keyFrame
  rw [loopIter_single_event, handleEvent_keyC_break _ _ _ _ _ _ _ hph]
  simp only [Option.some_bind]
  rw [drawPhase_countdown_wait _ _ _ _ _ _ rfl]
  simp only [Option.some_bind]
  rw [if_neg (by simp)]

/-- The frame on which the countdown elapses enters the Experiment phase,
consumes the next condition, and logs; it restores a `Ready` state. -/
theorem cdFrame_step (Wd Hd : Nat) (ts sample : List Cond) (hlen : ts.length = 120)
    (f : Nat) (hf : f ≤ 118) (s : Sess)
    (h1 : s.phase = Phase.countdown) (h2 : s.experimentCount = f)
    (h3 : s.currentTrialSequence = ts.drop (f + 1))
    (h4 : s.experimentPicked = (ts.drop 1).take f) :
    OptHolds (Ready ts f) (loopIter Wd Hd ts sample cdFrame s) := by
  have hlt : f + 1 < ts.length := by omega
  have hd : ts.drop (f + 1) = ts[f + 1] :: ts.drop (f + 2) := List.drop_eq_getElem_cons hlt
  have hch : pickChoice ts sample { s with phase := Phase.experiment } =
      some (ts[f + 1], ts.drop (f + 2), s.currentTrialIndex) := by
    apply pickChoice_popFront
    · simp
    · show s.currentTrialSequence = _
      rw [h3, hd]
  unfold cdFrame
  rw [loopIter_no_event, drawPhase_countdown_done _ _ _ _ _ _ h1,
    pickNewTarget_eq_place Wd Hd ts sample 0 { s with phase := Phase.experiment }
      (ts[f + 1]) (ts.drop (f + 2)) s.currentTrialIndex hch]
  simp only [Option.some_bind]
  have hpph : (place Wd Hd 0 (ts[f + 1]) (ts.drop (f + 2)) s.currentTrialIndex
      { s with phase := Phase.experiment }).phase = Phase.experiment := rfl
  have hcond : (place Wd Hd 0 (ts[f + 1]) (ts.drop (f + 2)) s.currentTrialIndex
        { s with phase := Phase.experiment }).phase = Phase.trial ∨
      (place Wd Hd 0 (ts[f + 1]) (ts.drop (f + 2)) s.currentTrialIndex
        { s with phase := Phase.experiment }).phase = Phase.experiment := Or.inr hpph
  rw [if_pos hcond]
  show Ready ts f _
  refine ⟨rfl, ?_, rfl, ?_⟩
  · show s.experimentCount = f
    exact h2
  · show (place Wd Hd 0 (ts[f + 1]) (ts.drop (f + 2)) s.currentTrialIndex
        { s with phase := Phase.experiment }).experimentPicked = (ts.drop 1).take (f + 1)
    rw [place_experimentPicked_exp _ _ _ _ _ _ _ rfl]
    show s.experimentPicked ++ [ts[f + 1]] = _
    have hidx : 1 + f = f + 1 := by omega
    rw [h4]
    conv_rhs => rw [List.take_succ]
    rw [List.getElem?_drop, hidx, List.getElem?_eq_getElem hlt]
    rfl

/-- One experiment hit from a `Ready e` state (`e ≤ 118`) re-establishes the
state invariant at `e + 1`. -/
theorem hitStep_sinv_from_ready (Wd Hd : Nat) (ts sample : List Cond)
    (hlen : ts.length = 120) (e : Nat) (he : e ≤ 118) (s : Sess) (hs : Ready ts e s) :
    OptHolds (SInv ts (e + 1)) (hitStep Wd Hd ts sample s) := by
  by_cases h118 : e = 118
  · subst h118
    refine optHolds_mono (hitStep_ready_118 Wd Hd ts sample hlen s hs) ?_
    intro s9 h
    show SInv ts 119 s9
    unfold SInv
    rw [if_pos rfl]
    exact h
  · have he1 : e ≤ 117 := by omega
    by_cases hm : (e + 1) % 20 = 0
    · refine optHolds_mono (hitStep_ready_break Wd Hd ts sample e he1 hm s hs) ?_
      intro s9 h
      unfold SInv
      rw [if_neg (by omega)]
      exact Or.inr h
    · refine optHolds_mono (hitStep_ready_next Wd Hd ts sample hlen e he1 hm s hs) ?_
      intro s9 h
      unfold SInv
      rw [if_neg (by omega)]
      exact Or.inl h

/-- One participant action (continuing through a break screen if necessary)
advances the state invariant by one hit. -/
theorem driveOne_sinv (Wd Hd : Nat) (ts sample : List Cond) (hlen : ts.length = 120)
    (e : Nat) (he : e ≤ 118) (s : Sess) (hs : SInv ts e s) :
    OptHolds (SInv ts (e + 1)) (driveOne Wd Hd ts sample s) := by
  unfold SInv at hs
  rw [if_neg (by omega)] at hs
  rcases hs with hready | hpend
  · have hph := hready.1
    unfold driveOne
    rw [hph]
    exact hitStep_sinv_from_ready Wd Hd ts sample hlen e he s hready
  · obtain ⟨p1, p2, p3, p4⟩ := hpend
    unfold driveOne
    rw [p1]
    rw [keyCFrame_break Wd Hd ts sample s p1]
    simp only [Option.some_bind]
    refine optHolds_bind (cdFrame_step Wd Hd ts sample hlen e he _ rfl p2 p3 p4) ?_
    intro s2 hs2
    exact hitStep_sinv_from_ready Wd Hd ts sample hlen e he s2 hs2

/-- Hitting the remaining `n` targets from the invariant at `e` hits
(`e + n = 120`) ends the session with the conditions consumed in the rotated
order. -/
theorem driveHits_sinv (Wd Hd : Nat) (ts sample : List Cond) (hlen : ts.length = 120)
    (n e : Nat) (hne : e + n = 120) (hn : 1 ≤ n) (s : Sess) (hs : SInv ts e s) :
    OptHolds (fun s9 => s9.phase = Phase.endPhase ∧
        s9.experimentPicked = ts.drop 1 ++ ts.take 1 ∧ s9.experimentCount = 120)
      (driveHits Wd Hd ts sample n s) := by
  induction n generalizing e s with
  | zero => omega
  | succ n ih =>
    by_cases hz : n = 0
    · subst hz
      have he119 : e = 119 := by omega
      subst he119
      unfold SInv at hs
      rw [if_pos rfl] at hs
      show OptHolds _ ((driveOne Wd Hd ts sample s).bind (driveHits Wd Hd ts sample 0))
      have hend : OptHolds (fun s9 => s9.phase = Phase.endPhase ∧
          s9.experimentPicked = ts.drop 1 ++ ts.take 1 ∧ s9.experimentCount = 120)
          (driveOne Wd Hd ts sample s) := by
        unfold driveOne
        rw [hs.1]
        exact hitStep_readyLast_end Wd Hd ts sample s hs
      exact optHolds_bind hend (fun s9 h => h)
    · have he118 : e ≤ 118 := by omega
      show OptHolds _ ((driveOne Wd Hd ts sample s).bind (driveHits Wd Hd ts sample n))
      refine optHolds_bind (driveOne_sinv Wd Hd ts sample hlen e he118 s hs) ?_
      intro s1 hs1
      exact ih (e + 1) (by omega) (by omega) s1 hs1

set_option maxHeartbeats 1000000 in
/-- The canonical session prefix (start click, one practice pass of three
centre hits, continue, countdown) reaches `Ready 0`: the program-start
placement has already consumed the first shuffled element, the practice read
elements 2 to 4 without popping them, and the first experiment placement pops
element 2. -/
theorem enterExperiment_ready (Wd Hd : Nat) (ts sample : List Cond) (hlen : ts.length = 120) :
    OptHolds (Ready ts 0) (enterExperiment Wd Hd ts sample) := by
  cases ts with
  | nil => simp at hlen
  | cons c0 t0 =>
  cases t0 with
  | nil => simp at hlen
  | cons c1 t1 =>
  cases t1 with
  | nil => simp at hlen
  | cons c2 t2 =>
  cases t2 with
  | nil => simp at hlen
  | cons c3 ts4 =>
  simp [enterExperiment, programStart, initSess, hitStep, hitFrame, clickFrame, keyFrame,
    cdFrame, loopIter, List.foldlM, handleEvent, pickNewTarget, pickChoice, place,
    drawPhase, logMouseData, saveLog, withinTarget_center, totalTrialTargets,
    totalExperimentTargets, breakInterval, conditions, distances, widths, repetitions,
    OptHolds, Ready]

/-- The full canonical session ends with the session in End and the
experiment-phase consumption equal to the shuffled sequence rotated left by
one (each condition-repetition pair consumed exactly once). -/
theorem canonicalRun_rotates (Wd Hd : Nat) (ts sample : List Cond) (hlen : ts.length = 120) :
    OptHolds (fun s9 => s9.phase = Phase.endPhase ∧
        s9.experimentPicked = ts.drop 1 ++ ts.take 1 ∧ s9.experimentCount = 120)
      (canonicalRun Wd Hd ts sample) := by
  unfold canonicalRun
  refine optHolds_bind (enterExperiment_ready Wd Hd ts sample hlen) ?_
  intro s hs
  apply driveHits_sinv Wd Hd ts sample hlen 120 0 (by omega) (by omega) s
  unfold SInv
  rw [if_neg (by omega)]
  exact Or.inl hs

set_option maxRecDepth 400000 in
/-- C1 counterexample: in the run whose seeded shuffle result is the explicit
permutation `trialSequenceUnshuffled`, by the time the first experiment-phase
target is on screen the experiment has consumed `(200, 50)` - the second
element of the shuffled sequence - not its first element `(200, 30)`: the
program-start placement (in StartScreen, through the experiment branch)
already popped the first element, so the i-th experiment target is not the
i-th element of the shuffled sequence. -/
theorem C1_counterexample_first_target_shifted :
    (enterExperiment 800 600 trialSequenceUnshuffled []).map (fun s => s.experimentPicked)
      = some [(200, 50)] ∧
    trialSequenceUnshuffled[0]? = some (200, 30) ∧
    ((200, 50) : Cond) ≠ (200, 30) := by
  refine ⟨by decide, by decide, by decide⟩

/-- C1 (amended): for every possible value `ts` of the seeded shuffle (any
permutation of the 120 condition-repetition pairs) and every canonical run,
the experiment-phase targets are the shuffled sequence rotated left by one:
targets 1 to 119 are elements 2 to 120 of `ts`, and target 120 repeats
element 1 (consumed once at program start and popped again after the
exhausted sequence is refilled); every pair of the multiset is still consumed
exactly once, and the session ends in End. -/
theorem C1_amended_rotated_consumption (Wd Hd : Nat) (sample ts : List Cond)
    (hp : ts.Perm trialSequenceUnshuffled) :
    ∃ s9, canonicalRun Wd Hd ts sample = some s9 ∧ s9.phase = Phase.endPhase ∧
      s9.experimentPicked = ts.drop 1 ++ ts.take 1 := by
  have hlen : ts.length = 120 := by
    rw [hp.length_eq]
    exact trialSequenceUnshuffled_length
  obtain ⟨s9, heq, hP⟩ := optHolds_elim (canonicalRun_rotates Wd Hd ts sample hlen)
  exact ⟨s9, heq, hP.1, hP.2.1⟩

/-- C1 amended witness: the explicit permutation `trialSequenceUnshuffled`. -/
theorem C1_amended_rotated_consumption_witness :
    ∃ s9, canonicalRun 800 600 trialSequenceUnshuffled [] = some s9 ∧
      s9.phase = Phase.endPhase ∧
      s9.experimentPicked =
        trialSequenceUnshuffled.drop 1 ++ trialSequenceUnshuffled.take 1 :=
  C1_amended_rotated_consumption 800 600 [] trialSequenceUnshuffled (List.Perm.refl _)

set_option maxRecDepth 400000 in
/-- C4: the repeat key never re-samples (the shared sequence is never empty in
a run) and never resets the practice index, which walks off the end of the
119-element leftover sequence: after the initial practice session plus 39
repeats via the repeat key, the third placement of the final repeat reads
index 119 and the source raises `IndexError` (modelled by `none`). -/
theorem C4_practice_repeat_crashes :
    practiceRepeatRun 800 600 trialSequenceUnshuffled [] 39 = none ∧
    (practiceRepeatRun 800 600 trialSequenceUnshuffled [] 38).map
        (fun s => (s.currentTrialIndex, decide (s.phase = Phase.transition)))
      = some (117, true) := by
  constructor <;> decide

end Fitts
